import Mathlib

/-!
Verification of the claudemon terminal dashboard against its specification.

The development shallowly embeds the parts of the Python source that the
claims concern:

* `src/claudemon/widgets/pie_chart.py` — the donut/ring gauge rasterizer
  (`PieChart._render_donut`, `PieChart._get_color`,
  `PieChart._format_reset_time`);
* `src/claudemon/widgets/stats_panel.py` — `StatsPanel._usage_color`;
* `src/claudemon/api.py` — `_parse_quota_response` and `_parse_iso_time`.

Percentages and grid coordinates are modelled over `ℚ` (the Python floats
that occur here are small decimal values, and every comparison the claims
touch is exact); the ring angle `atan2` is modelled over `ℝ` via
`Complex.arg`, which has exactly the `atan2(y, x)` semantics used by
`math.atan2` (range `(-π, π]`, value `0` on the nonnegative real axis).
Aware datetimes are modelled as an absolute instant (seconds since the Unix
epoch) paired with a fixed UTC offset.  JSON values reaching the quota
parser are modelled by the inductive type `PyVal`.
-/

namespace Claudemon

/-! ### Color thresholds -/

/-- Embedding of `PieChart._get_color` (pie_chart.py, lines 36-41). -/
def getColor (pct : ℚ) : String :=
  if pct < 50 then "green"
  else if pct < 80 then "yellow"
  else "red"

/-- Embedding of `StatsPanel._usage_color` (stats_panel.py, lines 100-106). -/
def usageColor (pct : ℚ) : String :=
  if pct < 50 then "green"
  else if pct < 80 then "yellow"
  else "red"

/-! ### Donut geometry (`PieChart._render_donut`)

The source fixes `outer_r = 5.0`, `inner_r = 3.0`, builds a grid of
`int(outer_r*2)+1` rows by `int(outer_r*4)+1` columns, and maps the cell at
`(row, col)` to `dy = row - outer_r`, `dx = (col - 2*outer_r)/2`. -/

def outer_r : ℚ := 5

def inner_r : ℚ := 3

/-- Number of grid rows, `int(outer_r * 2) + 1`. -/
def nRows : ℕ := (outer_r * 2).floor.toNat + 1

/-- Number of grid columns, `int(outer_r * 4) + 1`. -/
def nCols : ℕ := (outer_r * 4).floor.toNat + 1

def center_y : ℚ := outer_r

def center_x : ℚ := outer_r * 2

/-- Vertical offset of a grid row from the donut center: `dy = row - center_y`. -/
def dY (row : ℕ) : ℚ := (row : ℚ) - center_y

/-- Horizontal offset of a grid column, halved for the 2:1 terminal cell
aspect ratio: `dx = (col - center_x) / 2.0`. -/
def dX (col : ℕ) : ℚ := ((col : ℚ) - center_x) / 2

/-- Squared distance of a cell from the center, `dx*dx + dy*dy`. -/
def distSq (row col : ℕ) : ℚ := dX col * dX col + dY row * dY row

/-- A cell lies on the ring iff `inner_r <= sqrt(distSq) <= outer_r`.  The
source compares the square root with the radii; since both radii and the
distance are nonnegative and squaring is monotone on nonnegatives, this is
equivalent to comparing `distSq` with the squared radii, which keeps the
predicate exact (and decidable) over `ℚ`. -/
def onRing (row col : ℕ) : Prop :=
  inner_r * inner_r ≤ distSq row col ∧ distSq row col ≤ outer_r * outer_r

instance (row col : ℕ) : Decidable (onRing row col) := by
  unfold onRing; exact instDecidableAnd

/-- Clamping performed first by `_render_donut`:
`pct = max(0.0, min(100.0, self.usage_pct))`. -/
def clampPct (v : ℚ) : ℚ := max 0 (min 100 v)

/-- Angular extent of the filled arc, `2 * math.pi * (pct / 100.0)`. -/
noncomputable def usedAngle (pct : ℚ) : ℝ := 2 * Real.pi * ((pct : ℝ) / 100)

/-- Raw cell angle `math.atan2(dx, -dy)`: the argument of the complex number
with real part `-dy` and imaginary part `dx` (clockwise from 12 o'clock). -/
noncomputable def cellAngle (row col : ℕ) : ℝ :=
  Complex.arg ⟨((-dY row : ℚ) : ℝ), ((dX col : ℚ) : ℝ)⟩

/-- Normalized cell angle: the source adds `2π` when `atan2` is negative,
yielding a value in `[0, 2π)`. -/
noncomputable def normAngle (row col : ℕ) : ℝ :=
  if cellAngle row col < 0 then cellAngle row col + 2 * Real.pi
  else cellAngle row col

/-- Content of one grid cell before the text overlays (the inner double loop
of `_render_donut`, lines 61-82): a solid block in the threshold color when
the ring cell's angle is within the used arc, a dim dot on the rest of the
ring, and a blank off the ring. -/
noncomputable def cellContent (pct : ℚ) (row col : ℕ) : Char × String :=
  if onRing row col then
    if normAngle row col ≤ usedAngle pct then ('█', getColor pct)
    else ('░', "bright_black")
  else (' ', "")

/-! ### Grid assembly and text overlays -/

/-- Python `int()` applied to a rational: truncation toward zero. -/
def intTrunc (q : ℚ) : ℤ := if 0 ≤ q then ⌊q⌋ else -⌊-q⌋

/-- Rounding used by Python's `f"{pct:.0f}"` format: round to the nearest
integer, ties to the even integer. -/
def roundHalfEven (q : ℚ) : ℤ :=
  let f := ⌊q⌋
  let r := q - (f : ℚ)
  if r < 1 / 2 then f
  else if 1 / 2 < r then f + 1
  else if f % 2 = 0 then f else f + 1

/-- The centered percentage text `f"{pct:.0f}%"`. -/
def pctText (pct : ℚ) : String := toString (roundHalfEven pct) ++ "%"

/-- Starting column of a centered overlay string,
`int(center_x - len(s) / 2)`. -/
def startColOf (s : String) : ℤ := intTrunc (center_x - (s.length : ℚ) / 2)

/-- Replace the element at index `n` (no-op when out of range). -/
def modifyAt {α : Type} (l : List α) (n : ℕ) (f : α → α) : List α :=
  match l, n with
  | [], _ => []
  | a :: t, 0 => f a :: t
  | a :: t, n + 1 => a :: modifyAt t n f

/-- Overlay the characters `cs` onto a grid line starting at (possibly
negative) column `start`, skipping positions outside `[0, nCols)` — the
loop `for i, ch in enumerate(s): ... if 0 <= col_idx < cols`. -/
def placeChars (line : List (Char × String)) (start : ℤ) (cs : List Char)
    (style : String) : List (Char × String) :=
  match cs with
  | [] => line
  | c :: rest =>
    let line' := if 0 ≤ start ∧ start < (nCols : ℤ) then
        line.set start.toNat (c, style)
      else line
    placeChars line' (start + 1) rest style

/-- Row used for the centered percentage text, `rows // 2`. -/
def centerRow : ℕ := nRows / 2

/-- The character grid of `_render_donut` after the percentage and label
overlays (lines 56-100): the ring raster, then `pct_str` in
`bold {color}` on the center row, then the label in `dim` on the row
below (guarded by `label_row < rows`). -/
noncomputable def donutGrid (pct : ℚ) (label : String) :
    List (List (Char × String)) :=
  let g0 := (List.range nRows).map fun row =>
    (List.range nCols).map fun col => cellContent pct row col
  let ps := pctText pct
  let g1 := modifyAt g0 centerRow fun line =>
    placeChars line (startColOf ps) ps.toList ("bold " ++ getColor pct)
  if centerRow + 1 < nRows then
    modifyAt g1 (centerRow + 1) fun line =>
      placeChars line (startColOf label) label.toList "dim"
  else g1

/-- Right-side info appended after a grid row (lines 102-121): when a reset
string is present, `"Resets"` (dim) next to the row above center and the
formatted reset time (dim bold) next to the center row, each preceded by a
two-space unstyled separator. -/
def rightInfoAt (resetStr : Option String) (rowIdx : ℕ) :
    List (Char × String) :=
  match resetStr with
  | Option.none => []
  | Option.some s =>
    if rowIdx + 1 = centerRow then
      ("  ".toList.map fun c => (c, "")) ++
        ("Resets".toList.map fun c => (c, "dim"))
    else if rowIdx = centerRow then
      ("  ".toList.map fun c => (c, "")) ++
        (s.toList.map fun c => (c, "dim bold"))
    else []

/-- Full rendering of `_render_donut`, one list entry per text line: the
input percentage is clamped, rasterized and overlaid, and the right-side
reset annotation (already formatted, since `_format_reset_time` does not
depend on the percentage or label) is appended to its rows. -/
noncomputable def renderDonut (v : ℚ) (label : String)
    (resetStr : Option String) : List (List (Char × String)) :=
  let pct := clampPct v
  let g := donutGrid pct label
  g.enum.map fun p => p.2 ++ rightInfoAt resetStr p.1

/-- Number of ring cells rendered as the solid filled block `'█'` at a given
percentage. -/
noncomputable def fillCount (pct : ℚ) : ℕ :=
  ((Finset.range nRows ×ˢ Finset.range nCols).filter
    (fun c => (cellContent pct c.1 c.2).1 = '█')).card

/-! ### Basic angle lemmas -/

lemma neg_pi_lt_cellAngle (row col : ℕ) : -Real.pi < cellAngle row col :=
  Complex.neg_pi_lt_arg _

lemma cellAngle_le_pi (row col : ℕ) : cellAngle row col ≤ Real.pi :=
  Complex.arg_le_pi _

lemma normAngle_nonneg (row col : ℕ) : 0 ≤ normAngle row col := by
  unfold normAngle
  split_ifs with h
  · linarith [neg_pi_lt_cellAngle row col, Real.pi_pos]
  · exact not_lt.mp h

lemma normAngle_lt_two_pi (row col : ℕ) :
    normAngle row col < 2 * Real.pi := by
  unfold normAngle
  split_ifs with h
  · linarith
  · linarith [cellAngle_le_pi row col, Real.pi_pos]

lemma cellAngle_eq_zero_iff (row col : ℕ) :
    cellAngle row col = 0 ↔ 0 ≤ -dY row ∧ dX col = 0 := by
  unfold cellAngle
  rw [Complex.arg_eq_zero_iff]
  change (0 ≤ ((-dY row : ℚ) : ℝ) ∧ ((dX col : ℚ) : ℝ) = 0) ↔ _
  constructor
  · rintro ⟨h1, h2⟩
    exact ⟨by exact_mod_cast h1, by exact_mod_cast h2⟩
  · rintro ⟨h1, h2⟩
    exact ⟨by exact_mod_cast h1, by exact_mod_cast h2⟩

lemma normAngle_eq_zero_iff (row col : ℕ) :
    normAngle row col = 0 ↔ 0 ≤ -dY row ∧ dX col = 0 := by
  unfold normAngle
  split_ifs with h
  · constructor
    · intro h0
      exfalso
      have := neg_pi_lt_cellAngle row col
      have := Real.pi_pos
      linarith
    · intro hq
      exact absurd ((cellAngle_eq_zero_iff row col).mpr hq) (by intro he; rw [he] at h; exact lt_irrefl 0 h)
  · exact cellAngle_eq_zero_iff row col

lemma usedAngle_zero : usedAngle 0 = 0 := by
  unfold usedAngle; norm_num

lemma usedAngle_hundred : usedAngle 100 = 2 * Real.pi := by
  unfold usedAngle; norm_num

lemma usedAngle_mono {p1 p2 : ℚ} (h : p1 ≤ p2) :
    usedAngle p1 ≤ usedAngle p2 := by
  unfold usedAngle
  have hc : (p1 : ℝ) ≤ (p2 : ℝ) := by exact_mod_cast h
  have hpi : (0 : ℝ) ≤ 2 * Real.pi := by positivity
  apply mul_le_mul_of_nonneg_left _ hpi
  linarith

lemma fill_mono {p1 p2 : ℚ} (h : p1 ≤ p2) (row col : ℕ)
    (hc : (cellContent p1 row col).1 = '█') :
    (cellContent p2 row col).1 = '█' := by
  unfold cellContent at *
  by_cases hr : onRing row col
  · rw [if_pos hr] at *
    by_cases hf : normAngle row col ≤ usedAngle p1
    · rw [if_pos (le_trans hf (usedAngle_mono h))]
    · rw [if_neg hf] at hc
      exact absurd hc (by decide)
  · rw [if_neg hr] at hc
    exact absurd hc (by decide)

/-- C1 (corrected), counterexample to the claim as stated: at percentage 0
the ring cell at the top of the grid — `(row, col) = (0, 10)`, directly
above the center — is rendered as the solid filled block, because its angle
`atan2(0, 5) = 0` satisfies `angle <= used_angle = 0`. -/
theorem p0_top_cell_filled :
    onRing 0 10 ∧ cellContent 0 0 10 = ('█', "green") := by
  refine ⟨by norm_num [onRing, distSq, dX, dY, inner_r, outer_r, center_x, center_y], ?_⟩
  have hre : ((-dY 0 : ℚ) : ℝ) = 5 := by
    norm_num [dY, center_y, outer_r]
  have him : ((dX 10 : ℚ) : ℝ) = 0 := by
    norm_num [dX, center_x, outer_r]
  have hangle : cellAngle 0 10 = 0 := by
    unfold cellAngle
    rw [hre, him]
    exact Complex.arg_eq_zero_iff.mpr ⟨by norm_num, rfl⟩
  have hnorm : normAngle 0 10 = 0 := by
    unfold normAngle
    rw [hangle, if_neg (lt_irrefl 0)]
  unfold cellContent
  rw [if_pos (by norm_num [onRing, distSq, dX, dY, inner_r, outer_r, center_x, center_y] : onRing 0 10),
    if_pos (by rw [hnorm, usedAngle_zero])]
  norm_num [getColor]

/-- C1 (amended): at percentage 0, a ring cell is rendered as the solid
filled block iff it lies in the column directly above the center
(`col = 10`, `row < 5`, angle exactly 0); every other ring cell is the dim
dot. -/
theorem p0_fill_characterization (row col : ℕ) (h : onRing row col) :
    cellContent 0 row col =
      if col = 10 ∧ row < 5 then ('█', "green")
      else ('░', "bright_black") := by
  have hfill : normAngle row col ≤ usedAngle 0 ↔ (col = 10 ∧ row < 5) := by
    rw [usedAngle_zero]
    constructor
    · intro hle
      have h0 : normAngle row col = 0 :=
        le_antisymm hle (normAngle_nonneg row col)
      obtain ⟨h1, h2⟩ := (normAngle_eq_zero_iff row col).mp h0
      have hcolq : (col : ℚ) = 10 := by
        have := h2
        unfold dX center_x outer_r at this
        field_simp at this
        linarith
      have hcol : col = 10 := by exact_mod_cast hcolq
      have hrowq : (row : ℚ) ≤ 5 := by
        unfold dY center_y outer_r at h1
        linarith
      have hrow5 : row ≤ 5 := by exact_mod_cast hrowq
      have hne : row ≠ 5 := by
        intro he
        rw [he, hcol] at h
        exact absurd h (by norm_num [onRing, distSq, dX, dY, inner_r, outer_r, center_x, center_y])
      exact ⟨hcol, lt_of_le_of_ne hrow5 hne⟩
    · rintro ⟨hcol, hrow⟩
      subst hcol
      have h2 : dX 10 = 0 := by norm_num [dX, center_x, outer_r]
      have hrq : (row : ℚ) < 5 := by exact_mod_cast hrow
      have h1 : 0 ≤ -dY row := by
        unfold dY center_y outer_r
        linarith
      exact le_of_eq ((normAngle_eq_zero_iff row 10).mpr ⟨h1, h2⟩)
  unfold cellContent
  rw [if_pos h]
  by_cases hc : col = 10 ∧ row < 5
  · rw [if_pos (hfill.mpr hc), if_pos hc]
    norm_num [getColor]
  · rw [if_neg (fun hle => hc (hfill.mp hle)), if_neg hc]

/-- Witness for `p0_fill_characterization` at the concrete ring cell
`(2, 10)`: it is filled at percentage 0. -/
theorem p0_fill_characterization_witness :
    cellContent 0 2 10 = ('█', "green") := by
  have h := p0_fill_characterization 2 10 (by norm_num [onRing, distSq, dX, dY, inner_r, outer_r, center_x, center_y])
  rw [if_pos (by exact ⟨rfl, by norm_num⟩)] at h
  exact h

/-- C2 (confirmed): at percentage 100 every ring cell is rendered as the
solid filled block (colored red), before the text overlays: every
normalized angle lies in `[0, 2π)`, hence below `used_angle = 2π`. -/
theorem p100_all_ring_filled (row col : ℕ) (h : onRing row col) :
    cellContent 100 row col = ('█', "red") := by
  have hlt := normAngle_lt_two_pi row col
  unfold cellContent
  rw [if_pos h, if_pos (by rw [usedAngle_hundred]; linarith)]
  norm_num [getColor]

/-- Witness for `p100_all_ring_filled` at the concrete ring cell `(5, 0)`. -/
theorem p100_all_ring_filled_witness :
    cellContent 100 5 0 = ('█', "red") :=
  p100_all_ring_filled 5 0 (by norm_num [onRing, distSq, dX, dY, inner_r, outer_r, center_x, center_y])

/-- C3 (confirmed): the number of ring cells rendered as the solid filled
block is monotonically non-decreasing in the percentage on `[0, 100]`. -/
theorem fillCount_mono (p1 p2 : ℚ) (h0 : 0 ≤ p1) (h12 : p1 ≤ p2)
    (h2 : p2 ≤ 100) : fillCount p1 ≤ fillCount p2 := by
  unfold fillCount
  apply Finset.card_le_card
  intro c hc
  rw [Finset.mem_filter] at hc ⊢
  exact ⟨hc.1, fill_mono h12 c.1 c.2 hc.2⟩

/-- Witness for `fillCount_mono` at the concrete percentages 30 and 60. -/
theorem fillCount_mono_witness : fillCount 30 ≤ fillCount 60 :=
  fillCount_mono 30 60 (by norm_num) (by norm_num) (by norm_num)

/-- C4 (confirmed): exactly one color threshold applies per percentage,
with boundaries at 50 and 80, inclusive below and exclusive above; the
pie-chart and stats-panel color functions agree on every input. -/
theorem color_thresholds (p : ℚ) :
    (getColor p = "green" ↔ p < 50) ∧
    (getColor p = "yellow" ↔ 50 ≤ p ∧ p < 80) ∧
    (getColor p = "red" ↔ 80 ≤ p) ∧
    usageColor p = getColor p := by
  unfold getColor usageColor
  by_cases h1 : p < 50
  · rw [if_pos h1]
    refine ⟨⟨fun _ => h1, fun _ => rfl⟩, ⟨?_, ?_⟩, ⟨?_, ?_⟩, rfl⟩
    · intro hco; exact absurd hco (by decide)
    · rintro ⟨h50, _⟩; exact absurd h1 (not_lt.mpr h50)
    · intro hco; exact absurd hco (by decide)
    · intro h80; exact absurd h1 (not_lt.mpr (by linarith))
  · rw [if_neg h1]
    by_cases h2 : p < 80
    · rw [if_pos h2]
      refine ⟨⟨?_, ?_⟩, ⟨fun _ => ⟨not_lt.mp h1, h2⟩, fun _ => rfl⟩,
        ⟨?_, ?_⟩, rfl⟩
      · intro hco; exact absurd hco (by decide)
      · intro h50; exact absurd h50 h1
      · intro hco; exact absurd hco (by decide)
      · intro h80; exact absurd h2 (not_lt.mpr h80)
    · rw [if_neg h2]
      refine ⟨⟨?_, ?_⟩, ⟨?_, ?_⟩, ⟨fun _ => not_lt.mp h2, fun _ => rfl⟩, rfl⟩
      · intro hco; exact absurd hco (by decide)
      · intro h50; exact absurd h50 h1
      · intro hco; exact absurd hco (by decide)
      · rintro ⟨_, h80⟩; exact absurd h80 h2

/-! ### Grid dimensions and clamping -/

lemma placeChars_length (cs : List Char) :
    ∀ (line : List (Char × String)) (start : ℤ) (style : String),
      (placeChars line start cs style).length = line.length := by
  induction cs with
  | nil => intro line start style; rfl
  | cons c rest ih =>
    intro line start style
    unfold placeChars
    rw [ih]
    split_ifs
    · exact List.length_set line _ _
    · rfl

lemma modifyAt_map_length {β : Type} (f : List β → List β)
    (h : ∀ l, (f l).length = l.length) :
    ∀ (g : List (List β)) (n : ℕ),
      (modifyAt g n f).map List.length = g.map List.length := by
  intro g
  induction g with
  | nil => intro n; rfl
  | cons a t ih =>
    intro n
    cases n with
    | zero => simp [modifyAt, h a]
    | succ m => simp [modifyAt, ih m]

lemma range_map_const {β : Type} (n : ℕ) (b : β) :
    (List.range n).map (fun _ => b) = List.replicate n b := by
  induction n with
  | zero => rfl
  | succ m ih =>
    rw [List.range_succ, List.map_append, ih, List.replicate_succ']
    rfl

/-- C7 (confirmed): the rendered character grid always has `2R+1 = 11` rows
of `4R+1 = 21` columns each, for every percentage and label (and hence, as
the grid does not depend on it, for every reset time). -/
theorem donutGrid_dims (pct : ℚ) (label : String) :
    (donutGrid pct label).length = nRows ∧
    (donutGrid pct label).map List.length = List.replicate nRows nCols := by
  have hbase : ∀ q : ℚ,
      ((List.range nRows).map fun row =>
        (List.range nCols).map fun col => cellContent q row col).map
          List.length = List.replicate nRows nCols := by
    intro q
    rw [List.map_map]
    have : (List.length ∘ fun row =>
        (List.range nCols).map fun col => cellContent q row col) =
        fun _ => nCols := by
      funext r
      simp
    rw [this, range_map_const]
  have hmap : (donutGrid pct label).map List.length =
      List.replicate nRows nCols := by
    unfold donutGrid
    split_ifs
    · rw [modifyAt_map_length _ (fun l => placeChars_length _ l _ _),
        modifyAt_map_length _ (fun l => placeChars_length _ l _ _), hbase]
    · rw [modifyAt_map_length _ (fun l => placeChars_length _ l _ _), hbase]
  refine ⟨?_, hmap⟩
  have := congrArg List.length hmap
  simpa using this

lemma clampPct_idem (v : ℚ) : clampPct (clampPct v) = clampPct v := by
  unfold clampPct
  have h1 : (0 : ℚ) ≤ max 0 (min 100 v) := le_max_left _ _
  have h2 : max 0 (min 100 v) ≤ 100 :=
    max_le (by norm_num) (min_le_left _ _)
  rw [min_eq_right h2, max_eq_right h1]

/-- C9 (confirmed): the donut renderer clamps its input to `[0, 100]`
first, so rendering any value `v` — including negative values and values
above 100 — produces exactly the rendering of `max(0, min(100, v))`,
percentage text and fill pattern included. -/
theorem renderDonut_clamps (v : ℚ) (label : String)
    (resetStr : Option String) :
    renderDonut v label resetStr =
      renderDonut (clampPct v) label resetStr := by
  simp only [renderDonut, clampPct_idem]

/-! ### Reset-time formatting (`PieChart._format_reset_time`)

An aware Python datetime is modelled by the absolute instant it denotes
(seconds since the Unix epoch) together with the fixed UTC offset of its
`tzinfo`, in seconds.  `astimezone` changes the offset while keeping the
instant; `.date()` is the floor of the local-second count by 86400 (a civil
date is uniquely determined by that day number); `datetime.now(tz)` is the
current instant carrying `tz`. -/

structure PyDateTime where
  instant : ℤ
  utcoff : ℤ
deriving DecidableEq

/-- The `datetime.astimezone` conversion to a zone with the given offset:
same instant, new offset. -/
def astimezone (d : PyDateTime) (offset : ℤ) : PyDateTime :=
  ⟨d.instant, offset⟩

/-- Seconds since the epoch on the datetime's local clock. -/
def localSecs (d : PyDateTime) : ℤ := d.instant + d.utcoff

/-- The local calendar day number (`.date()` up to the bijection between
civil dates and day counts): floor division of the local seconds by 86400. -/
def dateOf (d : PyDateTime) : ℤ := (localSecs d).fdiv 86400

/-- Seconds past local midnight. -/
def timeOfDay (d : PyDateTime) : ℕ := ((localSecs d) % 86400).toNat

/-- Two-digit zero-padded minutes, as produced by `%M`. -/
def pad2 (n : ℕ) : String := if n < 10 then "0" ++ toString n else toString n

/-- Embedding of `strftime("%-I:%M%p").lower()`: 12-hour clock without a
leading zero, zero-padded minutes, lowercase `am`/`pm`. -/
def fmtTime12 (d : PyDateTime) : String :=
  let t := timeOfDay d
  let h := t / 3600
  let m := t % 3600 / 60
  toString (if h % 12 = 0 then 12 else h % 12) ++ ":" ++ pad2 m ++
    (if h < 12 then "am" else "pm")

/-- Proleptic-Gregorian civil date `(year, month, day)` of a day number
(days since 1970-01-01), by the standard era decomposition. -/
def civilFromDays (z0 : ℤ) : ℤ × ℕ × ℕ :=
  let z := z0 + 719468
  let era := z.fdiv 146097
  let doe : ℕ := (z - era * 146097).toNat
  let yoe := (doe - doe / 1460 + doe / 36524 - doe / 146096) / 365
  let doy := doe - (365 * yoe + yoe / 4 - yoe / 100)
  let mp := (5 * doy + 2) / 153
  let d := doy - (153 * mp + 2) / 5 + 1
  let m := if mp < 10 then mp + 3 else mp - 9
  let y := (yoe : ℤ) + era * 400 + (if m ≤ 2 then 1 else 0)
  (y, m, d)

/-- Lowercased month abbreviations produced by `%b` followed by
`.lower()`. -/
def monthAbbrev (m : ℕ) : String :=
  ["jan", "feb", "mar", "apr", "may", "jun",
   "jul", "aug", "sep", "oct", "nov", "dec"].getD (m - 1) ""

/-- Embedding of `strftime("%b %-d at %-I:%M%p").lower()`. -/
def fmtMonthDay (d : PyDateTime) : String :=
  let c := civilFromDays (dateOf d)
  monthAbbrev c.2.1 ++ " " ++ toString c.2.2 ++ " at " ++ fmtTime12 d

/-- Embedding of `PieChart._format_reset_time` (pie_chart.py, lines
127-143).  `nowInstant` is the instant returned by `datetime.now`, and
`localOff` the UTC offset of the system's local timezone used by the
zoneless `astimezone()` calls.  The source builds
`now = datetime.now(reset.tzinfo)`, converts both `reset` and `now` to
local time, and picks the format by comparing local calendar dates. -/
def formatResetTime (nowInstant : ℤ) (reset : PyDateTime)
    (localOff : ℤ) : String :=
  let now : PyDateTime := ⟨nowInstant, reset.utcoff⟩
  let localReset := astimezone reset localOff
  if dateOf localReset = dateOf (astimezone now localOff) then
    fmtTime12 localReset
  else if dateOf localReset = dateOf (astimezone now localOff) + 1 then
    "tomorrow at " ++ fmtTime12 localReset
  else
    fmtMonthDay localReset

/-- C5 (corrected), counterexample to the claim as stated: with the current
instant at the epoch (1970-01-01 00:00 UTC, local offset 0) and a reset time
of 02:30 the same local day, the formatter returns plainly `"2:30am"` — the
same-day branch does NOT carry the `"today "` prefix the claim describes
(the source's own docstring shows `'2:29am'` for this case). -/
theorem format_reset_today_no_prefix :
    dateOf (astimezone ⟨9000, 0⟩ 0) = dateOf (astimezone (⟨0, 0⟩ : PyDateTime) 0) ∧
    formatResetTime 0 ⟨9000, 0⟩ 0 = "2:30am" ∧
    "2:30am" ≠ "today 2:30am" := by
  refine ⟨by decide, by decide, by decide⟩

/-- C5 (amended): the annotation depends on the day offset between the
reset converted to local time and the current local date: at offset 0 it is
the bare 12-hour time `"H:MMam/pm"` (no `"today"` prefix), at offset 1 it is
`"tomorrow at H:MMam/pm"`, and otherwise it is the lowercased
`"mon d at H:MMam/pm"` month-name date form. -/
theorem format_reset_by_day_offset (n : ℤ) (r : PyDateTime) (L : ℤ) :
    (dateOf (astimezone r L) = dateOf ⟨n, L⟩ →
      formatResetTime n r L = fmtTime12 (astimezone r L)) ∧
    (dateOf (astimezone r L) = dateOf ⟨n, L⟩ + 1 →
      formatResetTime n r L = "tomorrow at " ++ fmtTime12 (astimezone r L)) ∧
    (dateOf (astimezone r L) ≠ dateOf ⟨n, L⟩ →
      dateOf (astimezone r L) ≠ dateOf ⟨n, L⟩ + 1 →
      formatResetTime n r L = fmtMonthDay (astimezone r L)) := by
  have hnow : astimezone ⟨n, r.utcoff⟩ L = (⟨n, L⟩ : PyDateTime) := rfl
  simp only [formatResetTime, hnow]
  refine ⟨fun h => ?_, fun h => ?_, fun h h' => ?_⟩
  · rw [if_pos h]
  · rw [if_neg (by omega), if_pos h]
  · rw [if_neg h, if_neg h']

/-- Witness for `format_reset_by_day_offset`, exercising all three
branches at concrete inputs around the epoch. -/
theorem format_reset_by_day_offset_witness :
    formatResetTime 0 ⟨3600, 0⟩ 0 = "1:00am" ∧
    formatResetTime 0 ⟨90000, 0⟩ 0 = "tomorrow at 1:00am" ∧
    formatResetTime 0 ⟨176400, 0⟩ 0 = "jan 3 at 1:00am" := by
  refine ⟨?_, ?_, ?_⟩
  · exact ((format_reset_by_day_offset 0 ⟨3600, 0⟩ 0).1 (by decide)).trans
      (by decide)
  · exact ((format_reset_by_day_offset 0 ⟨90000, 0⟩ 0).2.1 (by decide)).trans
      (by decide)
  · exact ((format_reset_by_day_offset 0 ⟨176400, 0⟩ 0).2.2 (by decide)
      (by decide)).trans (by decide)

/-- C6 (confirmed): a reset timestamp denoting the current instant takes
the same-local-date ("today") branch of the formatter regardless of the
timezone offset it carries — `datetime.now(reset.tzinfo)` shares the
instant, and both sides are converted to the local zone before their dates
are compared. -/
theorem format_reset_now_is_today (n ro L : ℤ) :
    formatResetTime n ⟨n, ro⟩ L = fmtTime12 (astimezone ⟨n, ro⟩ L) := by
  unfold formatResetTime
  rw [if_pos rfl]

/-! ### Quota response parsing (`api._parse_quota_response`)

JSON values reaching the parser are modelled by `PyVal`; a JSON object is
an association list whose first matching key wins (Python dict keys are
unique).  `dict.get(k, default)` on a non-dict value raises
`AttributeError`, so the fallible steps of the parser return `Except`.
Numbers are modelled over `ℚ`; the parsed `datetime` produced by
`_parse_iso_time` is represented by its normalized ISO string (the
`replace("Z", "+00:00")` step of the source; `fromisoformat` itself is
stdlib code outside the repository).  Because the `QuotaData` dataclass
declares `float` and `str` fields, the model requires utilization values to
be numbers and names/plans to be strings where the source would silently
store a value of another type. -/

inductive PyVal where
  | none : PyVal
  | bool : Bool → PyVal
  | num : ℚ → PyVal
  | str : String → PyVal
  | list : List PyVal → PyVal
  | dict : List (String × PyVal) → PyVal

/-- First-match association-list lookup (Python dict indexing). -/
def alookup (es : List (String × PyVal)) (k : String) : Option PyVal :=
  match es with
  | [] => Option.none
  | (k', v) :: t => if k' = k then Option.some v else alookup t k

/-- Python `d.get(k, default)` on an object already known to be a dict. -/
def dget (es : List (String × PyVal)) (k : String) (dflt : PyVal) : PyVal :=
  (alookup es k).getD dflt

/-- Python truthiness of a JSON value: `None`, `False`, `0`, `""`, `[]` and
`{}` are falsy. -/
def truthy : PyVal → Bool
  | PyVal.none => false
  | PyVal.bool b => b
  | PyVal.num q => !(q == 0)
  | PyVal.str s => !(s == "")
  | PyVal.list xs => !xs.isEmpty
  | PyVal.dict es => !es.isEmpty

/-- The normalization step of `_parse_iso_time` (api.py, lines 90-93); the
resulting string stands for the parsed `datetime`. -/
def isoNormalize (s : String) : String := s.replace "Z" "+00:00"

/-- Numeric value of a two-digit character pair. -/
def pairVal (a b : Char) : ℕ := (a.toNat - 48) * 10 + (b.toNat - 48)

/-- Shape check for the date-time part `YYYY-MM-DDTHH:MM:SS` of an ISO
string, with in-range fields. -/
def isoDateTimeOk (cs : List Char) : Bool :=
  match cs with
  | [y1, y2, y3, y4, '-', m1, m2, '-', d1, d2, 'T', h1, h2, ':', n1, n2, ':', s1, s2] =>
    y1.isDigit && y2.isDigit && y3.isDigit && y4.isDigit &&
    m1.isDigit && m2.isDigit && d1.isDigit && d2.isDigit &&
    h1.isDigit && h2.isDigit && n1.isDigit && n2.isDigit &&
    s1.isDigit && s2.isDigit &&
    decide (1 ≤ pairVal y1 y2 * 100 + pairVal y3 y4) &&
    decide (1 ≤ pairVal m1 m2) && decide (pairVal m1 m2 ≤ 12) &&
    decide (1 ≤ pairVal d1 d2) && decide (pairVal d1 d2 ≤ 28) &&
    decide (pairVal h1 h2 ≤ 23) && decide (pairVal n1 n2 ≤ 59) &&
    decide (pairVal s1 s2 ≤ 59)
  | _ => false

/-- Shape check for the optional UTC-offset suffix `±HH:MM` of an ISO
string. -/
def isoOffsetOk (cs : List Char) : Bool :=
  match cs with
  | [] => true
  | [sgn, o1, o2, ':', p1, p2] =>
    (sgn == '+' || sgn == '-') && o1.isDigit && o2.isDigit &&
    p1.isDigit && p2.isDigit &&
    decide (pairVal o1 o2 ≤ 23) && decide (pairVal p1 p2 ≤ 59)
  | _ => false

/-- Modelled from the spec: the acceptance condition of
`datetime.fromisoformat`, the Python-stdlib call inside `_parse_iso_time`
(api.py line 93), which per the spec "parses ISO-8601 timestamps" and
raises `ValueError` on other strings.  The model is conservative: it
accepts only `YYYY-MM-DDTHH:MM:SS` with day 01-28, optionally followed by a
`±HH:MM` offset — a subset of what every supported Python version parses —
so success is never claimed where the program could raise. -/
def fromisoformatOk (s : String) : Bool :=
  isoDateTimeOk (s.toList.take 19) && isoOffsetOk (s.toList.drop 19)

structure ModelQuota where
  model_name : String
  usage_pct : ℚ
deriving DecidableEq

structure QuotaData where
  five_hour_usage_pct : ℚ := 0
  five_hour_reset_time : Option String := Option.none
  seven_day_usage_pct : ℚ := 0
  seven_day_reset_time : Option String := Option.none
  model_quotas : List ModelQuota := []
  plan_type : String := "pro"
deriving DecidableEq

/-- The `utilization`-times-100 step
`five_hour.get("utilization", five_hour.get("usage_pct", 0.0)) * 100`: the
looked-up value must be a number (`QuotaData` declares `float`). -/
def parseUtil : PyVal → Except String ℚ
  | PyVal.num u => Except.ok (u * 100)
  | _ => Except.error "TypeError: utilization is not a number"

/-- The `if reset_at: ... _parse_iso_time(reset_at)` step: a falsy value is
skipped (keeping `None`); a truthy value must be a string, is normalized,
and must be accepted by `fromisoformat` — otherwise the program raises
`ValueError`. -/
def parseReset (r : PyVal) : Except String (Option String) :=
  if truthy r then
    match r with
    | PyVal.str s =>
      if fromisoformatOk (isoNormalize s) then
        Except.ok (Option.some (isoNormalize s))
      else Except.error "ValueError: invalid isoformat string"
    | _ => Except.error "TypeError: reset_at is not a string"
  else Except.ok Option.none

/-- Parsing of one usage window (the `five_hour` / `seven_day` blocks of
`_parse_quota_response`, api.py lines 57-75): a falsy value (in particular
the `{}` default of an absent key) is skipped, leaving the `QuotaData()`
defaults `(0, None)`; a truthy value must be a dict (otherwise `.get`
raises `AttributeError`), whose utilization and reset fields are parsed. -/
def parseWindow : PyVal → Except String (ℚ × Option String)
  | PyVal.dict es =>
    if truthy (PyVal.dict es) then
      match parseUtil (dget es "utilization" (dget es "usage_pct" (PyVal.num 0))) with
      | Except.error e => Except.error e
      | Except.ok p =>
        match parseReset (dget es "reset_at" (dget es "resetAt" PyVal.none)) with
        | Except.error e => Except.error e
        | Except.ok t => Except.ok (p, t)
    else Except.ok (0, Option.none)
  | w =>
    if truthy w then Except.error "AttributeError: object has no attribute get"
    else Except.ok (0, Option.none)

/-- Parsing of one model entry (api.py lines 79-82): each entry must be a
dict; its name must be a string and its utilization a number, matching the
`ModelQuota` dataclass fields. -/
def parseModelEntry : PyVal → Except String ModelQuota
  | PyVal.dict es =>
    match dget es "model" (dget es "name" (PyVal.str "unknown")) with
    | PyVal.str n =>
      match parseUtil (dget es "utilization" (dget es "usage_pct" (PyVal.num 0))) with
      | Except.error e => Except.error e
      | Except.ok p => Except.ok ⟨n, p⟩
    | _ => Except.error "TypeError: model name is not a string"
  | _ => Except.error "AttributeError: object has no attribute get"

/-- The `for m in models` loop, in order. -/
def parseModelList : List PyVal → Except String (List ModelQuota)
  | [] => Except.ok []
  | m :: rest =>
    match parseModelEntry m with
    | Except.error e => Except.error e
    | Except.ok q =>
      match parseModelList rest with
      | Except.error e => Except.error e
      | Except.ok qs => Except.ok (q :: qs)

/-- Parsing of the model list: `for m in models` iterates a list; an empty
dict or empty string iterates zero times; iterating a nonempty dict or
string yields strings whose `.get` raises, and other values are not
iterable. -/
def parseModels : PyVal → Except String (List ModelQuota)
  | PyVal.list xs => parseModelList xs
  | PyVal.dict es =>
    if es.isEmpty then Except.ok []
    else Except.error "AttributeError: object has no attribute get"
  | PyVal.str s =>
    if s = "" then Except.ok []
    else Except.error "AttributeError: object has no attribute get"
  | _ => Except.error "TypeError: object is not iterable"

/-- The plan value is stored in the `str`-typed `plan_type` field. -/
def parsePlan (v : PyVal) : Except String String :=
  match v with
  | PyVal.str s => Except.ok s
  | _ => Except.error "TypeError: plan_type is not a string"

/-- Embedding of `_parse_quota_response` (api.py, lines 53-87): the source
mutates a fresh `QuotaData()` block by block; the model composes the block
parsers and builds the record at the end, with the same snake-case-first
`data.get(snake, data.get(camel, default))` key precedence. -/
def parseQuotaResponse (data : List (String × PyVal)) :
    Except String QuotaData :=
  match parseWindow (dget data "five_hour" (dget data "fiveHour" (PyVal.dict []))) with
  | Except.error e => Except.error e
  | Except.ok (fp, ft) =>
    match parseWindow (dget data "seven_day" (dget data "sevenDay" (PyVal.dict []))) with
    | Except.error e => Except.error e
    | Except.ok (sp, st) =>
      match parseModels (dget data "models" (dget data "model_quotas" (PyVal.list []))) with
      | Except.error e => Except.error e
      | Except.ok ms =>
        match parsePlan (dget data "plan_type" (dget data "planType" (PyVal.str "pro"))) with
        | Except.error e => Except.error e
        | Except.ok pl => Except.ok ⟨fp, ft, sp, st, ms, pl⟩

/-! Shape predicates describing the inputs on which every step of the
parser succeeds. -/

def isNum : PyVal → Bool
  | PyVal.num _ => true
  | _ => false

def isStr : PyVal → Bool
  | PyVal.str _ => true
  | _ => false

/-- A truthy reset value must be a string that `fromisoformat` accepts. -/
def resetShaped : PyVal → Bool
  | PyVal.str s => fromisoformatOk (isoNormalize s)
  | _ => false

def windowShaped : PyVal → Bool
  | PyVal.dict es =>
    if truthy (PyVal.dict es) then
      isNum (dget es "utilization" (dget es "usage_pct" (PyVal.num 0))) &&
      (if truthy (dget es "reset_at" (dget es "resetAt" PyVal.none)) then
        resetShaped (dget es "reset_at" (dget es "resetAt" PyVal.none))
      else true)
    else true
  | w => !truthy w

def modelEntryShaped : PyVal → Bool
  | PyVal.dict es =>
    isStr (dget es "model" (dget es "name" (PyVal.str "unknown"))) &&
    isNum (dget es "utilization" (dget es "usage_pct" (PyVal.num 0)))
  | _ => false

def modelsShaped : PyVal → Bool
  | PyVal.list xs => xs.all modelEntryShaped
  | PyVal.dict es => es.isEmpty
  | PyVal.str s => s == ""
  | _ => false

def planShaped (v : PyVal) : Bool := isStr v

def wellShaped (data : List (String × PyVal)) : Bool :=
  windowShaped (dget data "five_hour" (dget data "fiveHour" (PyVal.dict []))) &&
  windowShaped (dget data "seven_day" (dget data "sevenDay" (PyVal.dict []))) &&
  modelsShaped (dget data "models" (dget data "model_quotas" (PyVal.list []))) &&
  planShaped (dget data "plan_type" (dget data "planType" (PyVal.str "pro")))

/-! ### Parser lemmas -/

lemma parse_components {data : List (String × PyVal)} {q : QuotaData}
    (h : parseQuotaResponse data = Except.ok q) :
    parseWindow (dget data "five_hour" (dget data "fiveHour" (PyVal.dict []))) =
      Except.ok (q.five_hour_usage_pct, q.five_hour_reset_time) ∧
    parseWindow (dget data "seven_day" (dget data "sevenDay" (PyVal.dict []))) =
      Except.ok (q.seven_day_usage_pct, q.seven_day_reset_time) ∧
    parseModels (dget data "models" (dget data "model_quotas" (PyVal.list []))) =
      Except.ok q.model_quotas ∧
    parsePlan (dget data "plan_type" (dget data "planType" (PyVal.str "pro"))) =
      Except.ok q.plan_type := by
  unfold parseQuotaResponse at h
  rcases e5 : parseWindow (dget data "five_hour" (dget data "fiveHour" (PyVal.dict []))) with e | ⟨fp, ft⟩
  · rw [e5] at h; simp at h
  · rw [e5] at h
    rcases e7 : parseWindow (dget data "seven_day" (dget data "sevenDay" (PyVal.dict []))) with e | ⟨sp, st⟩
    · rw [e7] at h; simp at h
    · rw [e7] at h
      rcases em : parseModels (dget data "models" (dget data "model_quotas" (PyVal.list []))) with e | ms
      · rw [em] at h; simp at h
      · rw [em] at h
        rcases ep : parsePlan (dget data "plan_type" (dget data "planType" (PyVal.str "pro"))) with e | pl
        · rw [ep] at h; simp at h
        · rw [ep] at h
          simp only [Except.ok.injEq] at h
          subst h
          exact ⟨rfl, rfl, rfl, rfl⟩

lemma parseWindow_util {es : List (String × PyVal)} {u p : ℚ}
    {t : Option String}
    (h : parseWindow (PyVal.dict es) = Except.ok (p, t))
    (hu : alookup es "utilization" = Option.some (PyVal.num u)) :
    p = u * 100 := by
  have hd : dget es "utilization" (dget es "usage_pct" (PyVal.num 0)) =
      PyVal.num u := by
    unfold dget; rw [hu]; rfl
  have ht : truthy (PyVal.dict es) = true := by
    cases es with
    | nil => simp [alookup] at hu
    | cons a tl => rfl
  rw [parseWindow, if_pos ht, hd] at h
  rcases hr : parseReset (dget es "reset_at" (dget es "resetAt" PyVal.none)) with e | t'
  · rw [hr] at h; simp [parseUtil] at h
  · rw [hr] at h
    simp [parseUtil] at h
    exact h.1.symm

lemma parseWindow_falsy {w : PyVal} (h : truthy w = false) :
    parseWindow w = Except.ok (0, Option.none) := by
  rcases w with _ | b | u | s | xs | es <;> simp [parseWindow, h]

lemma parseWindow_ok_of_shaped (w : PyVal) (h : windowShaped w = true) :
    ∃ x, parseWindow w = Except.ok x := by
  by_cases ht : truthy w = true
  · rcases w with _ | b | u | s | xs | es
    · simp [truthy] at ht
    · have h' : (!truthy (PyVal.bool b)) = true := h
      rw [ht] at h'
      exact Bool.noConfusion (show false = true from h')
    · have h' : (!truthy (PyVal.num u)) = true := h
      rw [ht] at h'
      exact Bool.noConfusion (show false = true from h')
    · have h' : (!truthy (PyVal.str s)) = true := h
      rw [ht] at h'
      exact Bool.noConfusion (show false = true from h')
    · have h' : (!truthy (PyVal.list xs)) = true := h
      rw [ht] at h'
      exact Bool.noConfusion (show false = true from h')
    · rw [windowShaped, if_pos ht, Bool.and_eq_true] at h
      obtain ⟨h1, h2⟩ := h
      rcases hu : dget es "utilization" (dget es "usage_pct" (PyVal.num 0))
        with _ | b | u | s | xs2 | es2 <;> rw [hu] at h1 <;>
        try simp [isNum] at h1
      by_cases hr : truthy (dget es "reset_at" (dget es "resetAt" PyVal.none)) = true
      · rw [if_pos hr] at h2
        rcases hv : dget es "reset_at" (dget es "resetAt" PyVal.none)
          with _ | b2 | u2 | s2 | xs3 | es3
        · rw [hv] at h2; exact Bool.noConfusion (show false = true from h2)
        · rw [hv] at h2; exact Bool.noConfusion (show false = true from h2)
        · rw [hv] at h2; exact Bool.noConfusion (show false = true from h2)
        · rw [hv] at h2
          have hiso : fromisoformatOk (isoNormalize s2) = true := h2
          refine ⟨(u * 100, Option.some (isoNormalize s2)), ?_⟩
          rw [hv] at hr
          rw [parseWindow, if_pos ht, hu, hv]
          simp [parseUtil, parseReset, hr, hiso]
        · rw [hv] at h2; exact Bool.noConfusion (show false = true from h2)
        · rw [hv] at h2; exact Bool.noConfusion (show false = true from h2)
      · have hr' : truthy (dget es "reset_at" (dget es "resetAt" PyVal.none)) = false := by
          revert hr; cases truthy (dget es "reset_at" (dget es "resetAt" PyVal.none)) <;> simp
        refine ⟨(u * 100, Option.none), ?_⟩
        rw [parseWindow, if_pos ht, hu]
        simp [parseUtil, parseReset, hr']
  · have hf : truthy w = false := by
      revert ht; cases truthy w <;> simp
    exact ⟨(0, Option.none), parseWindow_falsy hf⟩

lemma parseModelEntry_ok_of_shaped (m : PyVal)
    (h : modelEntryShaped m = true) : ∃ x, parseModelEntry m = Except.ok x := by
  rcases m with _ | b | u | s | xs | es
  iterate 5 exact Bool.noConfusion (show false = true from h)
  have h' : (isStr (dget es "model" (dget es "name" (PyVal.str "unknown"))) &&
      isNum (dget es "utilization" (dget es "usage_pct" (PyVal.num 0)))) =
      true := h
  rw [Bool.and_eq_true] at h'
  obtain ⟨h1, h2⟩ := h'
  rcases hn : dget es "model" (dget es "name" (PyVal.str "unknown"))
    with _ | b | u | n | xs2 | es2 <;> rw [hn] at h1 <;>
    try simp [isStr] at h1
  rcases hu : dget es "utilization" (dget es "usage_pct" (PyVal.num 0))
    with _ | b2 | u | s2 | xs3 | es3 <;> rw [hu] at h2 <;>
    try simp [isNum] at h2
  refine ⟨⟨n, u * 100⟩, ?_⟩
  rw [parseModelEntry, hn, hu]
  simp [parseUtil]

lemma parseModelList_ok_of_shaped (xs : List PyVal)
    (h : xs.all modelEntryShaped = true) :
    ∃ x, parseModelList xs = Except.ok x := by
  induction xs with
  | nil => exact ⟨[], rfl⟩
  | cons m rest ih =>
    rw [List.all_cons, Bool.and_eq_true] at h
    obtain ⟨mq, hmq⟩ := parseModelEntry_ok_of_shaped m h.1
    obtain ⟨qs, hqs⟩ := ih h.2
    exact ⟨mq :: qs, by rw [parseModelList, hmq, hqs]⟩

lemma parseModels_ok_of_shaped (v : PyVal) (h : modelsShaped v = true) :
    ∃ x, parseModels v = Except.ok x := by
  rcases v with _ | b | u | s | xs | es
  iterate 3 exact Bool.noConfusion (show false = true from h)
  · have hs : s = "" := by
      simpa using (show (s == "") = true from h)
    exact ⟨[], by rw [parseModels, if_pos hs]⟩
  · obtain ⟨x, hx⟩ := parseModelList_ok_of_shaped xs
      (show xs.all modelEntryShaped = true from h)
    exact ⟨x, by rw [parseModels]; exact hx⟩
  · exact ⟨[], by rw [parseModels, if_pos (show es.isEmpty = true from h)]⟩

lemma parsePlan_ok_of_shaped (v : PyVal) (h : planShaped v = true) :
    ∃ x, parsePlan v = Except.ok x := by
  rcases v with _ | b | u | s | xs | es
  · exact Bool.noConfusion (show false = true from h)
  · exact Bool.noConfusion (show false = true from h)
  · exact Bool.noConfusion (show false = true from h)
  · exact ⟨s, rfl⟩
  · exact Bool.noConfusion (show false = true from h)
  · exact Bool.noConfusion (show false = true from h)

lemma parseModelEntry_util {es : List (String × PyVal)} {u : ℚ}
    {mq : ModelQuota}
    (h : parseModelEntry (PyVal.dict es) = Except.ok mq)
    (hu : alookup es "utilization" = Option.some (PyVal.num u)) :
    mq.usage_pct = u * 100 := by
  have hd : dget es "utilization" (dget es "usage_pct" (PyVal.num 0)) =
      PyVal.num u := by
    unfold dget; rw [hu]; rfl
  rw [parseModelEntry] at h
  rcases hn : dget es "model" (dget es "name" (PyVal.str "unknown"))
    with _ | b | u2 | n | xs | es2 <;> rw [hn] at h <;> try simp at h
  rw [hd] at h
  simp [parseUtil] at h
  rw [← h]

/-- C8 (confirmed): the parser converts fractional utilization values to
percentages by multiplying by 100 — for the five-hour window, the seven-day
window, and each per-model entry. -/
theorem utilization_times_100 :
    (∀ (data : List (String × PyVal)) (q : QuotaData)
       (es : List (String × PyVal)) (u : ℚ),
      parseQuotaResponse data = Except.ok q →
      dget data "five_hour" (dget data "fiveHour" (PyVal.dict [])) =
        PyVal.dict es →
      alookup es "utilization" = Option.some (PyVal.num u) →
      q.five_hour_usage_pct = u * 100) ∧
    (∀ (data : List (String × PyVal)) (q : QuotaData)
       (es : List (String × PyVal)) (u : ℚ),
      parseQuotaResponse data = Except.ok q →
      dget data "seven_day" (dget data "sevenDay" (PyVal.dict [])) =
        PyVal.dict es →
      alookup es "utilization" = Option.some (PyVal.num u) →
      q.seven_day_usage_pct = u * 100) ∧
    (∀ (es : List (String × PyVal)) (mq : ModelQuota) (u : ℚ),
      parseModelEntry (PyVal.dict es) = Except.ok mq →
      alookup es "utilization" = Option.some (PyVal.num u) →
      mq.usage_pct = u * 100) := by
  refine ⟨?_, ?_, ?_⟩
  · intro data q es u h hget hu
    have h5 := (parse_components h).1
    rw [hget] at h5
    exact parseWindow_util h5 hu
  · intro data q es u h hget hu
    have h7 := (parse_components h).2.1
    rw [hget] at h7
    exact parseWindow_util h7 hu
  · intro es mq u h hu
    exact parseModelEntry_util h hu

/-- Witness for `utilization_times_100` at concrete responses: a five-hour
utilization of 1/2 is stored as 50%, a seven-day utilization of 1/4 as 25%,
and a model-entry utilization of 3/4 as 75%. -/
theorem utilization_times_100_witness :
    (QuotaData.mk 50 Option.none 0 Option.none [] "pro").five_hour_usage_pct =
      (1 / 2 : ℚ) * 100 ∧
    (QuotaData.mk 0 Option.none 25 Option.none [] "pro").seven_day_usage_pct =
      (1 / 4 : ℚ) * 100 ∧
    (ModelQuota.mk "claude-opus" 75).usage_pct = (3 / 4 : ℚ) * 100 := by
  have e5 : parseQuotaResponse
      [("five_hour", PyVal.dict [("utilization", PyVal.num (1 / 2))])] =
      Except.ok (QuotaData.mk 50 Option.none 0 Option.none [] "pro") := by
    simp [parseQuotaResponse, parseWindow, parseUtil, parseReset,
      parseModels, parsePlan, parseModelList, dget, alookup, truthy]
    norm_num
  have e7 : parseQuotaResponse
      [("seven_day", PyVal.dict [("utilization", PyVal.num (1 / 4))])] =
      Except.ok (QuotaData.mk 0 Option.none 25 Option.none [] "pro") := by
    simp [parseQuotaResponse, parseWindow, parseUtil, parseReset,
      parseModels, parsePlan, parseModelList, dget, alookup, truthy]
    norm_num
  have em : parseModelEntry (PyVal.dict
      [("utilization", PyVal.num (3 / 4)), ("model", PyVal.str "claude-opus")]) =
      Except.ok (ModelQuota.mk "claude-opus" 75) := by
    simp [parseModelEntry, parseUtil, dget, alookup]
    norm_num
  refine ⟨?_, ?_, ?_⟩
  · exact utilization_times_100.1
      [("five_hour", PyVal.dict [("utilization", PyVal.num (1 / 2))])]
      (QuotaData.mk 50 Option.none 0 Option.none [] "pro")
      [("utilization", PyVal.num (1 / 2))] (1 / 2) e5 rfl rfl
  · exact utilization_times_100.2.1
      [("seven_day", PyVal.dict [("utilization", PyVal.num (1 / 4))])]
      (QuotaData.mk 0 Option.none 25 Option.none [] "pro")
      [("utilization", PyVal.num (1 / 4))] (1 / 4) e7 rfl rfl
  · exact utilization_times_100.2.2
      [("utilization", PyVal.num (3 / 4)), ("model", PyVal.str "claude-opus")]
      (ModelQuota.mk "claude-opus" 75) (3 / 4) em rfl

/-- C10 (corrected), counterexample to the claim as stated: the parser is
not total over all input dicts — a truthy non-dict window value such as
`{"five_hour": 5}` makes `five_hour.get(...)` raise `AttributeError`. -/
theorem parse_not_total_counterexample :
    parseQuotaResponse [("five_hour", PyVal.num 5)] =
      Except.error "AttributeError: object has no attribute get" := by
  rfl

/-- C10 (amended): parsing succeeds on every well-shaped input dict (window
values that are falsy or dicts with numeric utilization and reset fields
that are absent, falsy, or strings accepted by `fromisoformat`; a
falsy-or-list-of-well-shaped-dicts model list; a string-or-absent plan); on
success, absent window keys leave usage 0.0 and reset `None`, an absent
model list leaves `model_quotas` empty, an absent plan field leaves
`plan_type = "pro"`; and the snake_case key always takes precedence over
its camelCase variant in the `data.get(snake, data.get(camel, d))`
pattern. -/
theorem parse_quota_response_properties :
    (∀ data, wellShaped data = true →
      ∃ q, parseQuotaResponse data = Except.ok q) ∧
    (∀ data q, parseQuotaResponse data = Except.ok q →
      (alookup data "five_hour" = Option.none →
        alookup data "fiveHour" = Option.none →
        q.five_hour_usage_pct = 0 ∧ q.five_hour_reset_time = Option.none) ∧
      (alookup data "seven_day" = Option.none →
        alookup data "sevenDay" = Option.none →
        q.seven_day_usage_pct = 0 ∧ q.seven_day_reset_time = Option.none) ∧
      (alookup data "models" = Option.none →
        alookup data "model_quotas" = Option.none →
        q.model_quotas = []) ∧
      (alookup data "plan_type" = Option.none →
        alookup data "planType" = Option.none →
        q.plan_type = "pro")) ∧
    (∀ (es : List (String × PyVal)) (k1 k2 : String) (d v : PyVal),
      alookup es k1 = Option.some v → dget es k1 (dget es k2 d) = v) := by
  refine ⟨?_, ?_, ?_⟩
  · intro data h
    unfold wellShaped at h
    rw [Bool.and_eq_true, Bool.and_eq_true, Bool.and_eq_true] at h
    obtain ⟨⟨⟨h5, h7⟩, hm⟩, hp⟩ := h
    obtain ⟨⟨fp, ft⟩, e5⟩ := parseWindow_ok_of_shaped _ h5
    obtain ⟨⟨sp, st⟩, e7⟩ := parseWindow_ok_of_shaped _ h7
    obtain ⟨ms, em⟩ := parseModels_ok_of_shaped _ hm
    obtain ⟨pl, ep⟩ := parsePlan_ok_of_shaped _ hp
    refine ⟨⟨fp, ft, sp, st, ms, pl⟩, ?_⟩
    unfold parseQuotaResponse
    rw [e5, e7, em, ep]
  · intro data q h
    obtain ⟨h5, h7, hm, hp⟩ := parse_components h
    refine ⟨?_, ?_, ?_, ?_⟩
    · intro ha hb
      have hd : dget data "five_hour" (dget data "fiveHour" (PyVal.dict [])) =
          PyVal.dict [] := by
        unfold dget; rw [ha, hb]; rfl
      rw [hd] at h5
      have : parseWindow (PyVal.dict []) = Except.ok (0, Option.none) := rfl
      rw [this] at h5
      simp only [Except.ok.injEq, Prod.mk.injEq] at h5
      exact ⟨h5.1.symm, h5.2.symm⟩
    · intro ha hb
      have hd : dget data "seven_day" (dget data "sevenDay" (PyVal.dict [])) =
          PyVal.dict [] := by
        unfold dget; rw [ha, hb]; rfl
      rw [hd] at h7
      have : parseWindow (PyVal.dict []) = Except.ok (0, Option.none) := rfl
      rw [this] at h7
      simp only [Except.ok.injEq, Prod.mk.injEq] at h7
      exact ⟨h7.1.symm, h7.2.symm⟩
    · intro ha hb
      have hd : dget data "models" (dget data "model_quotas" (PyVal.list [])) =
          PyVal.list [] := by
        unfold dget; rw [ha, hb]; rfl
      rw [hd] at hm
      have : parseModels (PyVal.list []) = Except.ok [] := rfl
      rw [this] at hm
      simp only [Except.ok.injEq] at hm
      exact hm.symm
    · intro ha hb
      have hd : dget data "plan_type" (dget data "planType" (PyVal.str "pro")) =
          PyVal.str "pro" := by
        unfold dget; rw [ha, hb]; rfl
      rw [hd] at hp
      have : parsePlan (PyVal.str "pro") = Except.ok "pro" := rfl
      rw [this] at hp
      simp only [Except.ok.injEq] at hp
      exact hp.symm
  · intro es k1 k2 d v hv
    unfold dget
    rw [hv]
    rfl

/-- Witness for `parse_quota_response_properties`: the empty response dict
is well-shaped and parses to the all-defaults record, and snake-case
precedence at a concrete two-key dict. -/
theorem parse_quota_response_properties_witness :
    (∃ q, parseQuotaResponse [] = Except.ok q) ∧
    (QuotaData.mk 0 Option.none 0 Option.none [] "pro").plan_type = "pro" ∧
    dget [("five_hour", PyVal.num 1), ("fiveHour", PyVal.num 2)] "five_hour"
      (dget [("five_hour", PyVal.num 1), ("fiveHour", PyVal.num 2)]
        "fiveHour" (PyVal.dict [])) = PyVal.num 1 := by
  refine ⟨?_, ?_, ?_⟩
  · exact parse_quota_response_properties.1 [] (by decide)
  · exact (parse_quota_response_properties.2.1 []
      (QuotaData.mk 0 Option.none 0 Option.none [] "pro") rfl).2.2.2 rfl rfl
  · exact parse_quota_response_properties.2.2
      [("five_hour", PyVal.num 1), ("fiveHour", PyVal.num 2)]
      "five_hour" "fiveHour" (PyVal.dict []) (PyVal.num 1) rfl

end Claudemon
